import Mathlib

/-!
Shallow embedding of the authoritative game core of the `cursor-tetris`
repository (server side: `src/server/game.js`, `src/server/player.js`,
the `Piece` class, and the `GameManager` of `src/src/index.js`), together
with theorems settling the specification claims.

JS arrays become Lean `List`s, JS strings become `String`, and the JS
value `undefined` (which arises from out-of-range array reads and missing
object fields) is modelled by `Option`.
-/

namespace Tetris

/-- A piece "type" as stored in JS: a string such as "I" or "X", or the JS
value `undefined` (modelled as `none`) when a piece is constructed from an
out-of-range read of the piece sequence. -/
abbrev Tag := Option String

/-- A board cell: the JS code stores `0` for empty and otherwise the piece
type that was locked there (a string, or `undefined` for a piece whose type
was `undefined`).  All code only tests `cell !== 0`, so we model a cell as
empty or filled with a tag. -/
inductive Cell where
  | empty : Cell
  | filled : Tag → Cell
deriving DecidableEq, Repr

abbrev Row := List Cell
abbrev Board := List Row

/-- Shape matrices are 0/1 in JS; `true` = filled. -/
abbrev Shape := List (List Bool)

/-- `shapes['I']` from `Piece.getShape`. -/
def shapeI : Shape :=
  [[false, false, false, false],
   [true,  true,  true,  true ],
   [false, false, false, false],
   [false, false, false, false]]

/-- `shapes['O']` from `Piece.getShape`. -/
def shapeO : Shape := [[true, true], [true, true]]

/-- `shapes['T']` from `Piece.getShape`. -/
def shapeT : Shape :=
  [[false, true, false], [true, true, true], [false, false, false]]

/-- `shapes['S']` from `Piece.getShape`. -/
def shapeS : Shape :=
  [[false, true, true], [true, true, false], [false, false, false]]

/-- `shapes['Z']` from `Piece.getShape`. -/
def shapeZ : Shape :=
  [[true, true, false], [false, true, true], [false, false, false]]

/-- `shapes['J']` from `Piece.getShape`. -/
def shapeJ : Shape :=
  [[true, false, false], [true, true, true], [false, false, false]]

/-- `shapes['L']` from `Piece.getShape`. -/
def shapeL : Shape :=
  [[false, false, true], [true, true, true], [false, false, false]]

/-- `Piece.getShape(type)`: object lookup `shapes[type] || shapes['I']`.
A lookup with any key other than the seven tetromino letters yields
`undefined`, so the `||` falls back to the `I` shape. -/
def getShape (t : Tag) : Shape :=
  if t = some "I" then shapeI
  else if t = some "O" then shapeO
  else if t = some "T" then shapeT
  else if t = some "S" then shapeS
  else if t = some "Z" then shapeZ
  else if t = some "J" then shapeJ
  else if t = some "L" then shapeL
  else shapeI

/-- The `Piece` class: `type`, position `(x, y)` and the shape grid. -/
structure Piece where
  type : Tag
  x : Int
  y : Int
  shape : Shape
deriving DecidableEq, Repr

/-- `new Piece(type)`: position (3, 0) and shape from `getShape`. -/
def mkPiece (t : Tag) : Piece := ⟨t, 3, 0, getShape t⟩

/-- One empty board row (`new Array(10).fill(0)` / inner loop of
`createEmptyBoard`). -/
def emptyRow : Row := List.replicate 10 Cell.empty

/-- `Game.createEmptyBoard()`: 20 rows of 10 empty cells. -/
def createEmptyBoard : Board := List.replicate 20 emptyRow

/-- Read a board cell; callers below only read in-bounds positions (the JS
code checks bounds before indexing), so the default is irrelevant there. -/
def cellAt (b : Board) (r c : Nat) : Cell :=
  ((b.getD r []).getD c Cell.empty)

/-- Write a board cell (in-bounds writes only, as in `lockPiece`). -/
def setCell (b : Board) (r c : Nat) (v : Cell) : Board :=
  b.set r ((b.getD r []).set c v)

/-- `Game.isValidPosition(board, piece, x, y)`: every filled shape cell must
land in bounds on an empty board cell. -/
def isValidPosition (board : Board) (piece : Piece) (x y : Int) : Bool :=
  piece.shape.enum.all fun rowPair =>
    rowPair.2.enum.all fun colPair =>
      if colPair.2 then
        let br : Int := y + rowPair.1
        let bc : Int := x + colPair.1
        decide (0 ≤ br) && decide (br < 20) && decide (0 ≤ bc) && decide (bc < 10) &&
          (cellAt board br.toNat bc.toNat = Cell.empty)
      else true

/-- Board part of `Game.lockPiece(player)`: write the piece's type into every
in-bounds filled cell. -/
def lockBoard (board : Board) (piece : Piece) : Board :=
  piece.shape.enum.foldl
    (fun b1 rowPair =>
      rowPair.2.enum.foldl
        (fun b2 colPair =>
          if colPair.2 then
            let br : Int := piece.y + rowPair.1
            let bc : Int := piece.x + colPair.1
            if 0 ≤ br ∧ br < 20 ∧ 0 ≤ bc ∧ bc < 10 then
              setCell b2 br.toNat bc.toNat (Cell.filled piece.type)
            else b2
          else b2)
        b1)
    board

/-- `Game.isLineFull(line)`: `line.every(cell => cell !== 0)`. -/
def isLineFull (line : Row) : Bool :=
  line.all fun c => c ≠ Cell.empty

/-- Board part of `Game.clearLines(player)`.  The JS loop scans from row 19
up to row 0; each full row is removed by `splice` and one empty row is
`unshift`ed at the top, and the same index is re-checked (`row++` before the
loop's `row--`).  Rows below the removed one keep their index and rows above
shift down by one, so the re-check visits every remaining row exactly once;
the net effect is: delete every full row, and prepend one empty row per
deletion.  Returns the new board and the number of cleared lines. -/
def clearLinesBoard (b : Board) : Board × Nat :=
  let kept := b.filter fun row => !isLineFull row
  let k := b.length - kept.length
  (List.replicate k emptyRow ++ kept, k)

/-- A penalty row as built in `Game.addPenaltyLinesToOthers`:
`new Array(10).fill('X')` — ten `X` cells, no gap. -/
def penaltyRow : Row := List.replicate 10 (Cell.filled (some "X"))

/-- Board part of `Game.addPenaltyLinesToOthers` for one opponent: `push`
`n` penalty rows at the bottom, then `shift` rows off the top
(`while (board.length > 20)`), i.e. drop the first `length − 20` rows. -/
def addPenaltyToBoard (b : Board) (n : Nat) : Board :=
  let b1 := b ++ List.replicate n penaltyRow
  b1.drop (b1.length - 20)

/-- The `Player` class (`src/server/player.js`): the fields the game core
reads and writes.  `board` is `null` until `distributePieces` runs, hence
`Option`; likewise `currentPiece` / `nextPiece`. -/
structure Player where
  id : String
  name : String
  isHost : Bool
  isAlive : Bool
  score : Nat
  linesCleared : Nat
  board : Board
  currentPiece : Option Piece
  nextPiece : Option Piece
deriving DecidableEq, Repr

/-- `new Player(id, name, roomName, isHost)`: alive, zero score and lines,
no board or pieces yet (the board is modelled as empty rather than `null`;
no claim reads a pre-start board). -/
def mkPlayer (id name : String) (isHost : Bool) : Player :=
  ⟨id, name, isHost, true, 0, 0, createEmptyBoard, none, none⟩

/-- Room phase: `this.status` of the `Game` class. -/
inductive Status where
  | waiting | playing | finished
deriving DecidableEq, Repr

/-- The `Game` class (`src/server/game.js`): the state the claims concern
(the Socket.IO handle and the timer are I/O and are not modelled). -/
structure Game where
  status : Status
  players : List Player
  pieceSequence : List String
  currentPieceIndex : Nat
deriving DecidableEq, Repr

/-- The base array of `generatePieceSequence`. -/
def pieceKinds : List String := ["I", "O", "T", "S", "Z", "J", "L"]

/-- One comparator step of `[...pieces].sort(() => Math.random() - 0.5)`:
the comparator ignores its arguments and returns a fresh `Math.random()`
draw.  We model each draw's sign as a `Bool` (`true` = negative, i.e. "keep
the inserted element before the compared one") consumed from an explicit
stream, and the sort as a comparator-driven insertion sort (V8 uses binary
insertion sort for arrays this short; which comparison sort is used does
not matter for the claims — only that the output is a function of the
random draws and nothing else). -/
def insertCmp (a : String) : List String → List Bool → List String × List Bool
  | [], rs => ([a], rs)
  | b :: bs, [] => (a :: b :: bs, [])
  | b :: bs, r :: rs =>
    if r then (a :: b :: bs, rs)
    else
      let p := insertCmp a bs rs
      (b :: p.1, p.2)

/-- Comparator-driven sort of a list, threading the stream of random
comparator signs. -/
def sortCmp (l : List String) (rs : List Bool) : List String × List Bool :=
  l.foldl (fun acc a => let p := insertCmp a acc.1 acc.2; (p.1, p.2)) ([], rs)

/-- `Game.generatePieceSequence()`: ten shuffled copies of the 7 kinds,
concatenated; the `Math.random()` draws are the explicit `rs` stream. -/
def genSeqAux : Nat → List Bool → List String × List Bool
  | 0, rs => ([], rs)
  | n + 1, rs =>
    let bag := sortCmp pieceKinds rs
    let rest := genSeqAux n bag.2
    (bag.1 ++ rest.1, rest.2)

/-- The piece sequence produced by `generatePieceSequence` from a given
stream of random comparator draws. -/
def generatePieceSequence (rs : List Bool) : List String :=
  (genSeqAux 10 rs).1

/-- `Game.distributePieces()`: every player gets `Piece(seq[idx])` and
`Piece(seq[idx+1])`, an empty board, and zero score and lines. -/
def distributePieces (g : Game) : Game :=
  { g with players := g.players.map fun p =>
      { p with
        currentPiece := some (mkPiece (g.pieceSequence[g.currentPieceIndex]?))
        nextPiece := some (mkPiece (g.pieceSequence[g.currentPieceIndex + 1]?))
        board := createEmptyBoard
        score := 0
        linesCleared := 0 } }

/-- `Game.start()`: status `playing`, generate the sequence from the random
draws, distribute pieces (the tick timer is I/O and not modelled). -/
def startG (g : Game) (rs : List Bool) : Game :=
  distributePieces { g with status := .playing, pieceSequence := generatePieceSequence rs }

/-- Player part of `Game.lockPiece(player)`. -/
def lockPlayer (p : Player) : Player :=
  match p.currentPiece with
  | none => p
  | some pc => { p with board := lockBoard p.board pc }

/-- `Game.clearLines(player)`: new board, and on a positive count add the
count to `linesCleared` and 100·count to `score`; returns the count. -/
def clearLinesPlayer (p : Player) : Player × Nat :=
  let bk := clearLinesBoard p.board
  (if bk.2 > 0 then
    { p with board := bk.1, linesCleared := p.linesCleared + bk.2,
             score := p.score + bk.2 * 100 }
   else { p with board := bk.1 }, bk.2)

/-- `Game.spawnNewPiece(player)`: advance the game-wide index, promote
`nextPiece` to `currentPiece` (resetting its position to (3, 0)), and draw a
fresh `nextPiece` from the sequence at the new index.  In JS a `null`
`nextPiece` would throw on `player.currentPiece.x = 3`; during play it is
always set, and we model the promotion with `Option.map`. -/
def spawnNewPiece (g : Game) (p : Player) : Game × Player :=
  let idx := g.currentPieceIndex + 1
  ({ g with currentPieceIndex := idx },
   { p with
      currentPiece := p.nextPiece.map fun pc => { pc with x := 3, y := 0 }
      nextPiece := some (mkPiece (g.pieceSequence[idx]?)) })

/-- `Game.canSpawnPiece(player)`: `isValidPosition(board, currentPiece, 3, 0)`.
A `null` piece would throw in JS; it cannot occur at the call sites during
play, and we return `true` (no topout) for it. -/
def canSpawnPiece (p : Player) : Bool :=
  match p.currentPiece with
  | none => true
  | some pc => isValidPosition p.board pc 3 0

/-- `Game.dropPiece(player)` without the `checkGameEnd` room scan (which
needs the whole player list; see `tickPlayer`): one gravity step, or on
landing the lock / clear / spawn / topout sequence.  Returns the updated
game (sequence index) and player. -/
def dropPieceStep (g : Game) (p : Player) : Game × Player :=
  match p.currentPiece with
  | none => (g, p)
  | some pc =>
    if isValidPosition p.board pc pc.x (pc.y + 1) then
      (g, { p with currentPiece := some { pc with y := pc.y + 1 } })
    else
      let p1 := lockPlayer p
      let p2 := (clearLinesPlayer p1).1
      let gp := spawnNewPiece g p2
      let p3 := gp.2
      if canSpawnPiece p3 then (gp.1, p3)
      else (gp.1, { p3 with isAlive := false })

/-- `Game.checkGameEnd()`: if at most one player is alive, end the game
(the winner and the emit are I/O; only the status change is state). -/
def checkGameEnd (g : Game) : Game :=
  if (g.players.filter (·.isAlive)).length ≤ 1 then { g with status := .finished }
  else g

/-- One player's slot of the tick loop in `startGameLoop`: if the player at
index `i` is alive, run `dropPiece` on them; the JS `player.isAlive = false`
writes through the shared object, so the list is updated before the
`checkGameEnd` scan that `dropPiece` performs when the player tops out. -/
def tickPlayer (g : Game) (i : Nat) : Game :=
  match g.players[i]? with
  | none => g
  | some p =>
    if p.isAlive then
      let gp := dropPieceStep g p
      let g2 := { gp.1 with players := gp.1.players.set i gp.2 }
      if gp.2.isAlive then g2 else checkGameEnd g2
    else g

/-- The `while isValidPosition(..., y + 1)` descent of `Game.hardDrop`,
with fuel.  Validity forces `y ≤ 19` whenever the shape has a filled cell,
so from any spawn position (`y ≥ 0`) the JS loop runs at most 20 times; a
fuel of 40 is never exhausted for such pieces. -/
def descend (b : Board) (pc : Piece) : Nat → Piece
  | 0 => pc
  | fuel + 1 =>
    if isValidPosition b pc pc.x (pc.y + 1) then
      descend b { pc with y := pc.y + 1 } fuel
    else pc

/-- `Game.hardDrop(player)`: guard on a live player with a piece, descend to
the bottom, then lock, clear and spawn — with no topout check.  Returns
(game, player, linesCleared, success). -/
def gameHardDrop (g : Game) (p : Player) : Game × Player × Nat × Bool :=
  match p.currentPiece with
  | none => (g, p, 0, false)
  | some pc =>
    if !p.isAlive then (g, p, 0, false)
    else
      let pc1 := descend p.board pc 40
      let p1 := { p with currentPiece := some pc1 }
      let p2 := lockPlayer p1
      let pk := clearLinesPlayer p2
      let gp := spawnNewPiece g pk.1
      (gp.1, gp.2, pk.2, true)

/-- One opponent's slot of `Game.addPenaltyLinesToOthers`: players other
than the clearing one who are alive get `n` penalty rows pushed (and the
top trimmed), then die if their current piece no longer fits at (3, 0)
(`canSpawnPiece` checks the spawn position). -/
def penalizeOne (clearingId : String) (n : Nat) (p : Player) : Player :=
  if p.id ≠ clearingId ∧ p.isAlive then
    let p1 := { p with board := addPenaltyToBoard p.board n }
    if canSpawnPiece p1 then p1 else { p1 with isAlive := false }
  else p

/-- `Game.addPenaltyLinesToOthers(clearingPlayer, penaltyLines)`.  The JS
`forEach` mutates the shared player objects and calls `checkGameEnd` after
each kill; the last such call sees exactly the final array (earlier entries
already updated, later entries never updated after the last kill), so the
net state is the mapped list with one final `checkGameEnd` iff some player
was killed. -/
def addPenaltyLinesToOthers (g : Game) (clearingId : String) (n : Nat) : Game :=
  let ps := g.players.map (penalizeOne clearingId n)
  let anyKilled := (g.players.zip ps).any fun q => q.1.isAlive && !q.2.isAlive
  let g1 := { g with players := ps }
  if anyKilled then checkGameEnd g1 else g1

/-- `GameManager.hardDrop(socket, data)` from `src/src/index.js`: only in a
`playing` room, for a known player; run `game.hardDrop`, and if any lines
were cleared inject `linesCleared − 1` penalty rows into the others.  The
manager resolves the player through its socket map; the shared object is
modelled by locating the player's index in the room's list. -/
def managerHardDrop (g : Game) (sockId : String) : Game :=
  if g.status ≠ .playing then g
  else
    match g.players.findIdx? (fun p => p.id = sockId) with
    | none => g
    | some i =>
      match g.players[i]? with
      | none => g
      | some p =>
        let r := gameHardDrop g p
        let g2 := { r.1 with players := r.1.players.set i r.2.1 }
        if r.2.2.2 && r.2.2.1 > 0 then
          addPenaltyLinesToOthers g2 r.2.1.id (r.2.2.1 - 1)
        else g2

/-- `Game.removePlayer` (by id): `findIndex` + `splice`, i.e. remove the
first player with the given id, if any. -/
def removePlayerById : List Player → String → List Player
  | [], _ => []
  | p :: ps, pid => if p.id = pid then ps else p :: removePlayerById ps pid

/-- `game.players[0].isHost = true` (host promotion in `handleDisconnect`). -/
def setHostFirst : List Player → List Player
  | [] => []
  | p :: ps => { p with isHost := true } :: ps

/-- `Game.endGame(winner)`: status `finished` (timer is I/O). -/
def endGameG (g : Game) : Game := { g with status := .finished }

/-- `GameManager.handleDisconnect` from `src/src/index.js`, restricted to
the leaver's room (`pl` is the shared `Player` object from the manager's
map): remove the player; an empty room is deleted (`none`); in a `playing`
room, a single survivor ends the game, and otherwise a leaving host
promotes the first remaining player.  In `waiting` or `finished` rooms no
promotion happens. -/
def handleDisconnect (g : Game) (pl : Player) : Option Game :=
  let ps := removePlayerById g.players pl.id
  if ps.length = 0 then none
  else if g.status = .playing then
    if ps.length = 1 then some (endGameG { g with players := ps })
    else if pl.isHost then some { g with players := setHostFirst ps }
    else some { g with players := ps }
  else some { g with players := ps }

/-- Room-state part of `GameManager.joinGame`: a join into a `playing`
room is rejected; otherwise the player is appended, and is host iff the
room was empty (`game.players.length === 0`).  (The duplicate-name check
queries the database, not the room state, and is not modelled.) -/
def joinGameAdd (g : Game) (sockId name : String) : Game :=
  if g.status = .playing then g
  else { g with players := g.players ++ [mkPlayer sockId name (g.players.length = 0)] }

/-- Outcome of `GameManager.startGame` (which error was emitted, if any). -/
inductive StartOutcome where
  | noGame | notHost | notEnoughPlayers | started
deriving DecidableEq, Repr

/-- `GameManager.startGame(socket, roomName)` from `src/src/index.js`:
reject when the room is unknown, when the requester is unknown or not a
host, or when the room has fewer than 1 player; otherwise `game.start()`.
There is no check of `game.status`.  `player?` is the requester's entry in
the manager's socket map (`none` when absent). -/
def startGameM (game? : Option Game) (player? : Option Player) (rs : List Bool) :
    Option Game × StartOutcome :=
  match game? with
  | none => (none, .noGame)
  | some g =>
    match player? with
    | none => (some g, .notHost)
    | some pl =>
      if !pl.isHost then (some g, .notHost)
      else if g.players.length < 1 then (some g, .notEnoughPlayers)
      else (some (startG g rs), .started)

/-- Number of hosts in a roster. -/
def hostCount (ps : List Player) : Nat := (ps.filter (·.isHost)).length

/-- A board of exactly 20 rows of exactly 10 cells each. -/
def boardDims (b : Board) : Prop := b.length = 20 ∧ ∀ r ∈ b, r.length = 10

instance (b : Board) : Decidable (boardDims b) := by
  unfold boardDims
  infer_instance

/-- Scenario for the C9 witness: a one-player room right after start. -/
def gameW9 : Game :=
  { status := .playing,
    players := [mkPlayer "a" "alice" true],
    pieceSequence := ["I", "O", "T"],
    currentPieceIndex := 0 }

/-- The player distributed in `gameW9`. -/
def playerW9 : Player :=
  { mkPlayer "a" "alice" true with
    currentPiece := some (mkPiece (some "I")),
    nextPiece := some (mkPiece (some "O")),
    board := createEmptyBoard }

/-- Scenario for the C1 witness: a two-player room about to start. -/
def gameW1 : Game :=
  { status := .playing,
    players := [mkPlayer "a" "alice" true, mkPlayer "b" "bob" false],
    pieceSequence := ["I", "O", "T"],
    currentPieceIndex := 0 }

/-- The first player of `gameW1` after `distributePieces`. -/
def playerW1 : Player :=
  { mkPlayer "a" "alice" true with
    currentPiece := some (mkPiece (some "I")),
    nextPiece := some (mkPiece (some "O")),
    board := createEmptyBoard }

/-- Scenario for C7: a room already in phase `playing`, with its host. -/
def playerA7 : Player := mkPlayer "a" "alice" true

/-- The C7 room: one player, phase `playing`. -/
def gameC7 : Game :=
  { status := .playing, players := [playerA7], pieceSequence := ["I"],
    currentPieceIndex := 0 }

/-- C6 scenario: the host of a two-player room in phase `waiting`. -/
def playerA6 : Player := mkPlayer "a" "alice" true

/-- C6 scenario: a non-host player. -/
def playerB6 : Player := mkPlayer "b" "bob" false

/-- C6 scenario: a second non-host player. -/
def playerC6 : Player := mkPlayer "c" "carol" false

/-- C6 scenario: a `waiting` room with a host and one other player. -/
def gameC6 : Game :=
  { status := .waiting, players := [playerA6, playerB6], pieceSequence := [],
    currentPieceIndex := 0 }

/-- C6 scenario: the room left over after the host disconnects from
`gameC6` — still non-empty, but with no host at all. -/
def gameC6after : Game :=
  { status := .waiting, players := [playerB6], pieceSequence := [],
    currentPieceIndex := 0 }

/-- C6 scenario: an empty `waiting` room. -/
def gameE6 : Game :=
  { status := .waiting, players := [], pieceSequence := [], currentPieceIndex := 0 }

/-- C6 scenario: a `playing` room with a host and two other players. -/
def gameP6 : Game :=
  { status := .playing, players := [playerA6, playerB6, playerC6],
    pieceSequence := [], currentPieceIndex := 0 }

/-- C6 scenario: `gameP6` after the host disconnects: the first remaining
player is promoted. -/
def gameP6after : Game :=
  { status := .playing, players := [mkPlayer "b" "bob" true, playerC6],
    pieceSequence := [], currentPieceIndex := 0 }

/-- True iff a shape has at least one filled cell; every real tetromino
shape (and the `I` fallback) does.  Structured over `enum` exactly like
`isValidPosition`, so the two pair up in proofs. -/
def hasFilledCell (s : Shape) : Bool :=
  s.enum.any fun rp => rp.2.enum.any fun cp => cp.2

/-- C5 scenario: a row with nine filled cells and a gap at column 9. -/
def rowC5 : Row := List.replicate 9 (Cell.filled (some "T")) ++ [Cell.empty]

/-- C5 scenario: a board filled from row 2 down (never a full line, thanks
to the column-9 gap). -/
def boardC5 : Board := List.replicate 2 emptyRow ++ List.replicate 18 rowC5

/-- C5 scenario: a player whose `O` piece at the spawn position is already
grounded, and whose next piece will not fit: a hard drop tops out. -/
def playerC5 : Player :=
  { id := "a", name := "alice", isHost := true, isAlive := true, score := 0,
    linesCleared := 0, board := boardC5, currentPiece := some (mkPiece (some "O")),
    nextPiece := some (mkPiece (some "O")) }

/-- C5 scenario: the room of `playerC5`. -/
def gameC5 : Game :=
  { status := .playing, players := [playerC5], pieceSequence := ["O", "O"],
    currentPieceIndex := 0 }

/-- C4 scenario: a row with cells in columns 0–7 and gaps at 8 and 9. -/
def rowT8 : Row := List.replicate 8 (Cell.filled (some "T")) ++ [Cell.empty, Cell.empty]

/-- C4 scenario: a board whose two bottom rows miss only columns 8 and 9. -/
def boardA4 : Board := List.replicate 18 emptyRow ++ [rowT8, rowT8]

/-- C4 scenario: an `O` piece resting at (8, 18), one gravity step from
locking and completing both bottom rows. -/
def pieceO818 : Piece := { mkPiece (some "O") with x := 8, y := 18 }

/-- C4 scenario: the player about to clear two lines on the next tick. -/
def playerA4 : Player :=
  { id := "a", name := "alice", isHost := true, isAlive := true, score := 0,
    linesCleared := 0, board := boardA4, currentPiece := some pieceO818,
    nextPiece := some (mkPiece (some "T")) }

/-- C4 scenario: the opponent with an empty board. -/
def playerB4 : Player :=
  { id := "b", name := "bob", isHost := false, isAlive := true, score := 0,
    linesCleared := 0, board := createEmptyBoard, currentPiece := some (mkPiece (some "I")),
    nextPiece := some (mkPiece (some "O")) }

/-- C4 scenario: the room for the tick counterexample. -/
def gameC4 : Game :=
  { status := .playing, players := [playerA4, playerB4],
    pieceSequence := ["I", "O", "T"], currentPieceIndex := 0 }

/-- C4 scenario: the same `O` piece at the top of column 8. -/
def pieceO80 : Piece := { mkPiece (some "O") with x := 8 }

/-- C4 scenario: `playerA4` holding the piece at the top, ready to hard
drop into the double clear. -/
def playerA4h : Player := { playerA4 with currentPiece := some pieceO80 }

/-- C4 scenario: the room for the hard-drop double clear. -/
def gameH4 : Game :=
  { status := .playing, players := [playerA4h, playerB4],
    pieceSequence := ["I", "O", "T"], currentPieceIndex := 0 }

/-- C4 scenario: a player whose hard drop clears nothing. -/
def playerK4 : Player :=
  { id := "a", name := "alice", isHost := true, isAlive := true, score := 0,
    linesCleared := 0, board := createEmptyBoard, currentPiece := some (mkPiece (some "O")),
    nextPiece := some (mkPiece (some "T")) }

/-- C4 scenario: the room for the zero-clear hard drop. -/
def gameK4 : Game :=
  { status := .playing, players := [playerK4, playerB4],
    pieceSequence := ["I", "O", "T"], currentPieceIndex := 0 }

/-- Any fold preserves any property preserved by each step. -/
theorem foldl_preserve {α β : Type} (P : α → Prop) (f : α → β → α)
    (hf : ∀ a x, P a → P (f a x)) : ∀ (l : List β) (a : α), P a → P (l.foldl f a) := by
  intro l
  induction l with
  | nil => intro a ha; exact ha
  | cons x xs ih => intro a ha; exact ih (f a x) (hf a x ha)

theorem boardDims_createEmptyBoard : boardDims createEmptyBoard := by
  constructor
  · simp [createEmptyBoard]
  · intro r hr
    rw [createEmptyBoard, List.mem_replicate] at hr
    simp [hr.2, emptyRow]

theorem boardDims_setCell (b : Board) (r c : Nat) (v : Cell) (h : boardDims b) :
    boardDims (setCell b r c v) := by
  rcases Nat.lt_or_ge r b.length with hr | hr
  · constructor
    · rw [setCell, List.length_set]; exact h.1
    · intro row hrow
      rcases List.mem_or_eq_of_mem_set hrow with hmem | heq
      · exact h.2 row hmem
      · rw [heq, List.length_set, List.getD_eq_getElem b [] hr]
        exact h.2 _ (List.getElem_mem hr)
  · rw [setCell, List.set_eq_of_length_le hr]; exact h

theorem boardDims_lockBoard (b : Board) (pc : Piece) (h : boardDims b) :
    boardDims (lockBoard b pc) := by
  unfold lockBoard
  refine foldl_preserve boardDims _ ?_ _ _ h
  intro b1 rowPair h1
  refine foldl_preserve boardDims _ ?_ _ _ h1
  intro b2 colPair h2
  dsimp only
  split
  · split
    · exact boardDims_setCell _ _ _ _ h2
    · exact h2
  · exact h2

theorem boardDims_clearLines (b : Board) (h : boardDims b) :
    boardDims (clearLinesBoard b).1 := by
  unfold clearLinesBoard
  dsimp only
  constructor
  · rw [List.length_append, List.length_replicate, ← h.1,
      Nat.sub_add_cancel (List.length_filter_le _ b)]
  · intro r hr
    rcases List.mem_append.1 hr with hrep | hfil
    · rw [(List.mem_replicate.1 hrep).2]; simp [emptyRow]
    · exact h.2 r (List.mem_filter.1 hfil).1

theorem length_penaltyRow : penaltyRow.length = 10 := by simp [penaltyRow]

theorem boardDims_addPenalty (b : Board) (n : Nat) (h : boardDims b) :
    boardDims (addPenaltyToBoard b n) := by
  unfold addPenaltyToBoard
  dsimp only
  constructor
  · rw [List.length_drop, List.length_append, List.length_replicate, h.1]
    omega
  · intro r hr
    rcases List.mem_append.1 (List.mem_of_mem_drop hr) with hb | hrep
    · exact h.2 r hb
    · rw [(List.mem_replicate.1 hrep).2]; exact length_penaltyRow

/-- C8. After every board-mutating operation of the game core — creating the
board at game start, locking a piece in, clearing lines, and injecting
penalty rows — the board consists of exactly 20 rows of exactly 10 cells
each. -/
theorem board_dims_invariant (b : Board) (pc : Piece) (n : Nat) (h : boardDims b) :
    boardDims createEmptyBoard ∧ boardDims (lockBoard b pc) ∧
    boardDims (clearLinesBoard b).1 ∧ boardDims (addPenaltyToBoard b n) :=
  ⟨boardDims_createEmptyBoard, boardDims_lockBoard b pc h,
   boardDims_clearLines b h, boardDims_addPenalty b n h⟩

/-- Witness for C8 at a concrete board, piece and penalty count. -/
theorem board_dims_invariant_witness :
    boardDims createEmptyBoard ∧ boardDims (lockBoard createEmptyBoard (mkPiece (some "T"))) ∧
    boardDims (clearLinesBoard createEmptyBoard).1 ∧
    boardDims (addPenaltyToBoard createEmptyBoard 2) :=
  board_dims_invariant createEmptyBoard (mkPiece (some "T")) 2 (by decide)

theorem lockPlayer_score (p : Player) :
    (lockPlayer p).score = p.score ∧ (lockPlayer p).linesCleared = p.linesCleared := by
  unfold lockPlayer
  cases p.currentPiece <;> simp

theorem clearLinesPlayer_ratio (p : Player) (h : p.score = 100 * p.linesCleared) :
    (clearLinesPlayer p).1.score = 100 * (clearLinesPlayer p).1.linesCleared := by
  unfold clearLinesPlayer
  dsimp only
  split <;> simp only
  · rw [h]; ring
  · exact h

theorem spawnNewPiece_score (g : Game) (p : Player) :
    (spawnNewPiece g p).2.score = p.score ∧
    (spawnNewPiece g p).2.linesCleared = p.linesCleared := by
  unfold spawnNewPiece
  exact ⟨rfl, rfl⟩

theorem dropPieceStep_ratio (g : Game) (p : Player) (h : p.score = 100 * p.linesCleared) :
    (dropPieceStep g p).2.score = 100 * (dropPieceStep g p).2.linesCleared := by
  unfold dropPieceStep
  cases hpc : p.currentPiece with
  | none => exact h
  | some pc =>
    dsimp only
    split
    · exact h
    · have hlock := lockPlayer_score p
      have hclear := clearLinesPlayer_ratio (lockPlayer p)
        (by rw [hlock.1, hlock.2]; exact h)
      have hspawn := spawnNewPiece_score g (clearLinesPlayer (lockPlayer p)).1
      split <;> simp only <;> rw [hspawn.1, hspawn.2] <;> exact hclear

theorem gameHardDrop_ratio (g : Game) (p : Player) (h : p.score = 100 * p.linesCleared) :
    (gameHardDrop g p).2.1.score = 100 * (gameHardDrop g p).2.1.linesCleared := by
  unfold gameHardDrop
  cases hpc : p.currentPiece with
  | none => exact h
  | some pc =>
    dsimp only
    split
    · exact h
    · set p1 : Player := { p with currentPiece := some (descend p.board pc 40) } with hp1
      have hlock := lockPlayer_score p1
      have hclear := clearLinesPlayer_ratio p1
      have hspawn := spawnNewPiece_score g (clearLinesPlayer (lockPlayer p1)).1
      rw [hspawn.1, hspawn.2]
      exact clearLinesPlayer_ratio (lockPlayer p1) (by rw [hlock.1, hlock.2]; exact h)

/-- C9. Score is always 100 times the number of cleared lines: game start
(`distributePieces`) zeroes both, and every lock-in — whether through the
tick's `clearLines` or through a hard drop — adds 100·k and k together, so
the ratio is preserved by every scoring operation. -/
theorem score_lines_invariant (g : Game) (p q : Player)
    (hq : q ∈ (distributePieces g).players) (hp : p.score = 100 * p.linesCleared) :
    (q.score = 0 ∧ q.linesCleared = 0) ∧
    (clearLinesPlayer p).1.score = 100 * (clearLinesPlayer p).1.linesCleared ∧
    (dropPieceStep g p).2.score = 100 * (dropPieceStep g p).2.linesCleared ∧
    (gameHardDrop g p).2.1.score = 100 * (gameHardDrop g p).2.1.linesCleared := by
  refine ⟨?_, clearLinesPlayer_ratio p hp, dropPieceStep_ratio g p hp, gameHardDrop_ratio g p hp⟩
  unfold distributePieces at hq
  dsimp only at hq
  rcases List.mem_map.1 hq with ⟨r, _, hr⟩
  rw [← hr]
  exact ⟨rfl, rfl⟩

/-- Witness for C9 at a concrete room and player. -/
theorem score_lines_invariant_witness :
    (playerW9.score = 0 ∧ playerW9.linesCleared = 0) ∧
    (clearLinesPlayer playerW9).1.score = 100 * (clearLinesPlayer playerW9).1.linesCleared ∧
    (dropPieceStep gameW9 playerW9).2.score =
      100 * (dropPieceStep gameW9 playerW9).2.linesCleared ∧
    (gameHardDrop gameW9 playerW9).2.1.score =
      100 * (gameHardDrop gameW9 playerW9).2.1.linesCleared :=
  score_lines_invariant gameW9 playerW9 playerW9 (by decide) (by decide)

theorem insertCmp_length (a : String) : ∀ (l : List String) (rs : List Bool),
    (insertCmp a l rs).1.length = l.length + 1 := by
  intro l
  induction l with
  | nil => intro rs; rfl
  | cons b bs ih =>
    intro rs
    cases rs with
    | nil => rfl
    | cons r rs =>
      unfold insertCmp
      split
      · rfl
      · dsimp only
        rw [List.length_cons, List.length_cons, ih rs]

theorem sortCmp_go_length : ∀ (l : List String) (acc : List String) (rs : List Bool),
    (l.foldl (fun q a => let p := insertCmp a q.1 q.2; (p.1, p.2)) (acc, rs)).1.length
      = acc.length + l.length := by
  intro l
  induction l with
  | nil => intro acc rs; rfl
  | cons x xs ih =>
    intro acc rs
    rw [List.foldl_cons]
    dsimp only
    rw [ih, insertCmp_length, List.length_cons]
    omega

theorem sortCmp_length (l : List String) (rs : List Bool) :
    (sortCmp l rs).1.length = l.length := by
  unfold sortCmp
  rw [sortCmp_go_length]
  simp

theorem genSeqAux_length : ∀ (n : Nat) (rs : List Bool),
    (genSeqAux n rs).1.length = n * 7 := by
  intro n
  induction n with
  | zero => intro rs; rfl
  | succ m ih =>
    intro rs
    unfold genSeqAux
    dsimp only
    rw [List.length_append, sortCmp_length, ih]
    simp [pieceKinds]
    ring

theorem generatePieceSequence_length (rs : List Bool) :
    (generatePieceSequence rs).length = 70 := by
  unfold generatePieceSequence
  rw [genSeqAux_length]

theorem getShape_default (t : Tag)
    (h : t ∉ [some "I", some "O", some "T", some "S", some "Z", some "J", some "L"]) :
    getShape t = shapeI := by
  simp only [List.mem_cons, List.not_mem_nil, or_false, not_or] at h
  obtain ⟨h1, h2, h3, h4, h5, h6, h7⟩ := h
  simp [getShape, h1, h2, h3, h4, h5, h6, h7]

theorem spawnNewPiece_exhausted (g : Game) (p : Player)
    (h : g.pieceSequence.length ≤ g.currentPieceIndex + 1) :
    (spawnNewPiece g p).2.nextPiece = some (mkPiece none) := by
  unfold spawnNewPiece
  dsimp only
  rw [List.getElem?_eq_none h]

/-- C10. A `Piece` built with a kind outside the seven tetromino letters
keeps that kind as its `type` but gets the `I` shape (the `shapes[type] ||
shapes['I']` fallback); `generatePieceSequence` always emits exactly 70
kinds (10 bags of 7); and once the game-wide index passes the end of the
sequence, `spawnNewPiece` reads `undefined` from the array, so the freshly
drawn piece has an undefined kind and the `I` shape. -/
theorem unknown_kind_piece_and_exhaustion (t : Tag) (rs : List Bool) (g : Game) (p : Player)
    (ht : t ∉ [some "I", some "O", some "T", some "S", some "Z", some "J", some "L"])
    (hex : g.pieceSequence.length ≤ g.currentPieceIndex + 1) :
    ((mkPiece t).shape = shapeI ∧ (mkPiece t).type = t) ∧
    (generatePieceSequence rs).length = 70 ∧
    ((spawnNewPiece g p).2.nextPiece = some (mkPiece none) ∧
      (mkPiece none).shape = shapeI ∧ (mkPiece none).type = none) :=
  ⟨⟨getShape_default t ht, rfl⟩, generatePieceSequence_length rs,
   spawnNewPiece_exhausted g p hex, rfl, rfl⟩

/-- Witness for C10 with the penalty kind `X` and an exhausted sequence. -/
theorem unknown_kind_piece_and_exhaustion_witness :
    ((mkPiece (some "X")).shape = shapeI ∧ (mkPiece (some "X")).type = some "X") ∧
    (generatePieceSequence []).length = 70 ∧
    ((spawnNewPiece ({ status := .playing, players := [], pieceSequence := [],
                       currentPieceIndex := 0 } : Game)
        (mkPlayer "a" "alice" true)).2.nextPiece = some (mkPiece none) ∧
      (mkPiece none).shape = shapeI ∧ (mkPiece none).type = none) :=
  unknown_kind_piece_and_exhaustion (some "X") []
    ({ status := .playing, players := [], pieceSequence := [], currentPieceIndex := 0 } : Game)
    (mkPlayer "a" "alice" true) (by decide) (by decide)

/-- C2 (code bug).  The claim — and the code's own comment "Indestructible
penalty blocks" — say a cell tagged `X` is never set to empty by ClearLines.
But `isLineFull` only tests `cell !== 0`, so the all-`X` row that
`addPenaltyLinesToOthers` injects counts as full, and `clearLines` removes
it, replacing its ten `X` cells by an empty row: injecting one penalty row
into an empty board and then clearing lines yields the empty board again
with a reported clear count of 1. -/
theorem clearLines_clears_penalty_row :
    addPenaltyToBoard createEmptyBoard 1 = List.replicate 19 emptyRow ++ [penaltyRow] ∧
    isLineFull penaltyRow = true ∧
    clearLinesBoard (List.replicate 19 emptyRow ++ [penaltyRow]) = (createEmptyBoard, 1) := by
  decide

/-- C3 counterexample.  The injected penalty row (the bottom row after
injecting one row into an empty board) has zero empty cells — not "9 cells
of kind X and exactly one empty cell" — and it is full under `isLineFull`,
so it is not "never full under ClearLines". -/
theorem penaltyRow_no_gap_cex :
    (addPenaltyToBoard createEmptyBoard 1).getLast? = some penaltyRow ∧
    penaltyRow.count Cell.empty = 0 ∧
    isLineFull penaltyRow = true := by
  decide

/-- C3 as amended: every injected penalty row consists of ten cells of kind
`X` with no empty cell (so the row is full under `isLineFull`), and
injection appends `n` such rows at the bottom while discarding exactly the
`n` rows pushed off the top. -/
theorem addPenalty_allX_and_discard (b : Board) (n : Nat) (hb : b.length = 20)
    (hn : n ≤ 20) :
    addPenaltyToBoard b n = b.drop n ++ List.replicate n penaltyRow ∧
    ∀ c ∈ penaltyRow, c = Cell.filled (some "X") := by
  constructor
  · unfold addPenaltyToBoard
    dsimp only
    rw [List.length_append, List.length_replicate, hb]
    have h20 : 20 + n - 20 = n := by omega
    rw [h20, List.drop_append_of_le_length (by omega)]
  · intro c hc
    exact (List.mem_replicate.1 hc).2

/-- Witness for the amended C3 at a concrete board and count. -/
theorem addPenalty_allX_and_discard_witness :
    addPenaltyToBoard createEmptyBoard 2 =
      createEmptyBoard.drop 2 ++ List.replicate 2 penaltyRow ∧
    ∀ c ∈ penaltyRow, c = Cell.filled (some "X") :=
  addPenalty_allX_and_discard createEmptyBoard 2 (by decide) (by decide)

theorem distributePieces_pieces (g : Game) (p : Player)
    (hp : p ∈ (distributePieces g).players) :
    p.currentPiece = some (mkPiece (g.pieceSequence[g.currentPieceIndex]?)) ∧
    p.nextPiece = some (mkPiece (g.pieceSequence[g.currentPieceIndex + 1]?)) := by
  unfold distributePieces at hp
  dsimp only at hp
  rcases List.mem_map.1 hp with ⟨r, _, hr⟩
  rw [← hr]
  exact ⟨rfl, rfl⟩

theorem spawnNewPiece_seq (g : Game) (p : Player) :
    (spawnNewPiece g p).1.pieceSequence = g.pieceSequence := rfl

theorem checkGameEnd_seq (g : Game) :
    (checkGameEnd g).pieceSequence = g.pieceSequence := by
  unfold checkGameEnd
  split <;> rfl

theorem dropPieceStep_seq (g : Game) (p : Player) :
    (dropPieceStep g p).1.pieceSequence = g.pieceSequence := by
  unfold dropPieceStep
  cases p.currentPiece with
  | none => rfl
  | some pc =>
    dsimp only
    split
    · rfl
    · split <;> rfl

theorem tickPlayer_seq (g : Game) (i : Nat) :
    (tickPlayer g i).pieceSequence = g.pieceSequence := by
  unfold tickPlayer
  cases g.players[i]? with
  | none => rfl
  | some p =>
    dsimp only
    split
    · split
      · exact dropPieceStep_seq g p
      · rw [checkGameEnd_seq]
        exact dropPieceStep_seq g p
    · rfl

theorem gameHardDrop_seq (g : Game) (p : Player) :
    (gameHardDrop g p).1.pieceSequence = g.pieceSequence := by
  unfold gameHardDrop
  cases p.currentPiece with
  | none => rfl
  | some pc =>
    dsimp only
    split <;> rfl

theorem addPenaltyLinesToOthers_seq (g : Game) (cid : String) (n : Nat) :
    (addPenaltyLinesToOthers g cid n).pieceSequence = g.pieceSequence := by
  unfold addPenaltyLinesToOthers
  dsimp only
  split
  · rw [checkGameEnd_seq]
  · rfl

theorem managerHardDrop_seq (g : Game) (sid : String) :
    (managerHardDrop g sid).pieceSequence = g.pieceSequence := by
  unfold managerHardDrop
  split
  · rfl
  · split
    · rfl
    · split
      · rfl
      · dsimp only
        split
        · rw [addPenaltyLinesToOthers_seq]
          exact gameHardDrop_seq g _
        · exact gameHardDrop_seq g _

/-- C1 as amended.  The piece stream is drawn from `Math.random()` at game
start, not from a room seed (see the counterexample); but once generated it
is a single array owned by the room: it is never mutated by ticks, spawns,
hard drops or penalty injection, and `distributePieces` hands every player
in the room the pieces at the same shared indices, so the kind any two
players see at stream index i is identical and independent of their input
order and rate of consumption; and two rooms started from the same draws
get the same stream. -/
theorem pieceSequence_fixed_and_shared (g g2 : Game) (rs : List Bool) (i n : Nat)
    (sid : String) (p q w : Player)
    (hp : p ∈ (distributePieces g).players) (hq : q ∈ (distributePieces g).players) :
    (p.currentPiece = q.currentPiece ∧ p.nextPiece = q.nextPiece) ∧
    ((tickPlayer g i).pieceSequence = g.pieceSequence ∧
     (spawnNewPiece g w).1.pieceSequence = g.pieceSequence ∧
     (gameHardDrop g w).1.pieceSequence = g.pieceSequence ∧
     (addPenaltyLinesToOthers g sid n).pieceSequence = g.pieceSequence ∧
     (managerHardDrop g sid).pieceSequence = g.pieceSequence) ∧
    (startG g rs).pieceSequence = (startG g2 rs).pieceSequence := by
  have h1 := distributePieces_pieces g p hp
  have h2 := distributePieces_pieces g q hq
  refine ⟨⟨?_, ?_⟩, ⟨tickPlayer_seq g i, spawnNewPiece_seq g w, gameHardDrop_seq g w,
    addPenaltyLinesToOthers_seq g sid n, managerHardDrop_seq g sid⟩, rfl⟩
  · rw [h1.1, h2.1]
  · rw [h1.2, h2.2]

/-- Witness for the amended C1 at a concrete two-player room. -/
theorem pieceSequence_fixed_and_shared_witness :
    (playerW1.currentPiece = playerW1.currentPiece ∧
      playerW1.nextPiece = playerW1.nextPiece) ∧
    ((tickPlayer gameW1 0).pieceSequence = gameW1.pieceSequence ∧
     (spawnNewPiece gameW1 playerW1).1.pieceSequence = gameW1.pieceSequence ∧
     (gameHardDrop gameW1 playerW1).1.pieceSequence = gameW1.pieceSequence ∧
     (addPenaltyLinesToOthers gameW1 "a" 1).pieceSequence = gameW1.pieceSequence ∧
     (managerHardDrop gameW1 "a").pieceSequence = gameW1.pieceSequence) ∧
    (startG gameW1 []).pieceSequence = (startG gameW1 []).pieceSequence :=
  pieceSequence_fixed_and_shared gameW1 gameW1 [] 0 1 "a" playerW1 playerW1 playerW1
    (by decide) (by decide)

/-- C1 counterexample.  `generatePieceSequence` is a function of the
`Math.random()` draws alone: the same room state with two different draw
streams produces two different piece sequences, so the stream is not a
deterministic function of any room seed (the room has none). -/
theorem pieceSequence_not_seed_deterministic :
    generatePieceSequence (List.replicate 300 true) ≠
      generatePieceSequence (List.replicate 300 false) := by
  decide

/-- C7 counterexample.  `GameManager.startGame` never checks the room's
phase: in a room whose status is already `playing`, a start request from
the host succeeds (`started`, and the room state is re-initialized), where
the claim requires rejection with BadPhase and an unchanged room. -/
theorem startGame_ignores_phase_cex :
    gameC7.status = .playing ∧
    (startGameM (some gameC7) (some playerA7) []).2 = .started ∧
    (startGameM (some gameC7) (some playerA7) []).1 ≠ some gameC7 := by
  decide

/-- C7 as amended: StartGame succeeds exactly when the room exists with at
least 1 player and the requester is a known host — the phase is not
consulted; on any rejection the room state is unchanged. -/
theorem startGame_success_iff (game? : Option Game) (player? : Option Player)
    (rs : List Bool) :
    ((startGameM game? player? rs).2 = .started ↔
      (∃ g, game? = some g ∧ 1 ≤ g.players.length) ∧
      (∃ pl, player? = some pl ∧ pl.isHost = true)) ∧
    ((startGameM game? player? rs).2 ≠ .started →
      (startGameM game? player? rs).1 = game?) := by
  unfold startGameM
  cases game? with
  | none => simp
  | some g =>
    cases player? with
    | none => simp
    | some pl =>
      dsimp only
      by_cases hh : pl.isHost
      · by_cases hlen : g.players.length < 1
        · have h1 : ¬1 ≤ g.players.length := by omega
          simp [hh, hlen, h1]
        · have h1 : 1 ≤ g.players.length := by omega
          simp [hh, hlen, h1]
      · simp [hh]

/-- Witness for the amended C7 at the concrete playing room. -/
theorem startGame_success_iff_witness :
    ((startGameM (some gameC7) (some playerA7) []).2 = .started ↔
      (∃ g, some gameC7 = some g ∧ 1 ≤ g.players.length) ∧
      (∃ pl, some playerA7 = some pl ∧ pl.isHost = true)) ∧
    ((startGameM (some gameC7) (some playerA7) []).2 ≠ .started →
      (startGameM (some gameC7) (some playerA7) []).1 = some gameC7) :=
  startGame_success_iff (some gameC7) (some playerA7) []

theorem hostCount_cons (p : Player) (ps : List Player) :
    hostCount (p :: ps) = (if p.isHost then 1 else 0) + hostCount ps := by
  by_cases h : p.isHost
  · simp [hostCount, List.filter_cons, h]
    omega
  · simp [hostCount, List.filter_cons, h]

theorem hostCount_pos_of_mem {ps : List Player} {pl : Player} (h : pl ∈ ps)
    (hh : pl.isHost = true) : 0 < hostCount ps := by
  have hm : pl ∈ ps.filter (·.isHost) := List.mem_filter.2 ⟨h, hh⟩
  unfold hostCount
  exact List.length_pos.2 fun he => by rw [he] at hm; cases hm

theorem hostCount_removePlayerById_le : ∀ (ps : List Player) (pid : String),
    hostCount (removePlayerById ps pid) ≤ hostCount ps := by
  intro ps
  induction ps with
  | nil => intro pid; exact Nat.le_refl _
  | cons p ps ih =>
    intro pid
    unfold removePlayerById
    split
    · rw [hostCount_cons]; omega
    · rw [hostCount_cons, hostCount_cons]
      have := ih pid
      omega

theorem hostCount_removePlayerById_host (pl : Player) : ∀ (ps : List Player),
    (ps.map (·.id)).Nodup → pl ∈ ps → pl.isHost = true → hostCount ps ≤ 1 →
    hostCount (removePlayerById ps pl.id) = 0 := by
  intro ps
  induction ps with
  | nil => intro _ h; cases h
  | cons p ps ih =>
    intro hnd hmem hh hle
    rw [List.map_cons, List.nodup_cons] at hnd
    rw [hostCount_cons] at hle
    unfold removePlayerById
    split
    · rename_i hid
      rcases List.mem_cons.1 hmem with heq | htail
      · have hph : p.isHost = true := heq ▸ hh
        rw [if_pos hph] at hle
        omega
      · exact absurd (hid ▸ List.mem_map_of_mem (·.id) htail) hnd.1
    · rename_i hid
      have htail : pl ∈ ps := by
        rcases List.mem_cons.1 hmem with heq | h
        · exact absurd (congrArg (·.id) heq).symm hid
        · exact h
      rw [hostCount_cons]
      by_cases hph : p.isHost
      · have h1 := hostCount_pos_of_mem htail hh
        rw [if_pos hph] at hle
        omega
      · rw [if_neg hph]
        rw [if_neg hph] at hle
        simpa using ih hnd.2 htail hh (by omega)

theorem hostCount_setHostFirst_le (ps : List Player) :
    hostCount (setHostFirst ps) ≤ hostCount ps + 1 := by
  cases ps with
  | nil => simp [setHostFirst, hostCount]
  | cons p ps =>
    rw [setHostFirst, hostCount_cons, hostCount_cons]
    by_cases h : p.isHost
    · simp [h]
    · simp [h]
      omega

/-- C6 counterexample.  In a `waiting` two-player room, the host
disconnecting leaves a non-empty room with zero hosts: `handleDisconnect`
promotes a new host only when the room's status is `playing` (and at least
two players remain), so the claimed "exactly one host iff non-empty, with
promotion in any phase" fails. -/
theorem host_leave_waiting_no_promotion_cex :
    gameC6.status = .waiting ∧ playerA6.isHost = true ∧
    handleDisconnect gameC6 playerA6 = some gameC6after ∧
    gameC6after.players.length = 1 ∧ hostCount gameC6after.players = 0 := by
  decide

/-- C6 as amended.  Join and disconnect preserve "at most one host per
room" (given distinct connection ids), and a join into an empty room makes
exactly one host; but a room can be non-empty with no host: promotion of
the first remaining player happens only when the leaver was the host, the
phase is `playing`, and at least two players remain; when the phase is not
`playing` the roster after a disconnect is the bare removal, with no
promotion. -/
theorem host_uniqueness_amended :
    (∀ (g : Game) (sid nm : String), hostCount g.players ≤ 1 →
        hostCount (joinGameAdd g sid nm).players ≤ 1) ∧
    (∀ (g : Game) (sid nm : String), g.players = [] → g.status ≠ .playing →
        hostCount (joinGameAdd g sid nm).players = 1) ∧
    (∀ (g : Game) (pl : Player) (g2 : Game),
        (g.players.map (·.id)).Nodup → pl ∈ g.players → hostCount g.players ≤ 1 →
        handleDisconnect g pl = some g2 → hostCount g2.players ≤ 1) ∧
    (∀ (g : Game) (pl : Player) (g2 : Game),
        g.status = .playing → pl.isHost = true →
        2 ≤ (removePlayerById g.players pl.id).length →
        handleDisconnect g pl = some g2 →
        g2.players.head?.map (·.isHost) = some true) ∧
    (∀ (g : Game) (pl : Player) (g2 : Game), g.status ≠ .playing →
        handleDisconnect g pl = some g2 →
        g2.players = removePlayerById g.players pl.id) := by
  refine ⟨?_, ?_, ?_, ?_, ?_⟩
  · intro g sid nm hle
    unfold joinGameAdd
    split
    · exact hle
    · dsimp only
      rw [hostCount, List.filter_append, List.length_append]
      by_cases he : g.players.length = 0
      · have hnil : g.players = [] := List.length_eq_zero.1 he
        simp [hnil, mkPlayer, hostCount]
      · have h2 : hostCount g.players ≤ 1 := hle
        rw [hostCount] at h2
        simp [mkPlayer, he]
        omega
  · intro g sid nm hemp hst
    unfold joinGameAdd
    rw [if_neg hst, hemp]
    simp [hostCount, mkPlayer]
  · intro g pl g2 hnd hmem hle hd
    by_cases h0 : (removePlayerById g.players pl.id).length = 0
    · simp [handleDisconnect, h0] at hd
    · by_cases hsp : g.status = .playing
      · by_cases h1 : (removePlayerById g.players pl.id).length = 1
        · simp [handleDisconnect, h0, hsp, h1, endGameG] at hd
          rw [← hd]
          exact Nat.le_trans (hostCount_removePlayerById_le g.players pl.id) hle
        · by_cases hph : pl.isHost
          · simp [handleDisconnect, h0, hsp, h1, hph] at hd
            rw [← hd]
            dsimp only
            have hz := hostCount_removePlayerById_host pl g.players hnd hmem hph hle
            have hsle := hostCount_setHostFirst_le (removePlayerById g.players pl.id)
            omega
          · simp [handleDisconnect, h0, hsp, h1, hph] at hd
            rw [← hd]
            exact Nat.le_trans (hostCount_removePlayerById_le g.players pl.id) hle
      · simp [handleDisconnect, h0, hsp] at hd
        rw [← hd]
        exact Nat.le_trans (hostCount_removePlayerById_le g.players pl.id) hle
  · intro g pl g2 hst hh hlen hd
    have h0 : ¬(removePlayerById g.players pl.id).length = 0 := by omega
    have h1 : ¬(removePlayerById g.players pl.id).length = 1 := by omega
    simp [handleDisconnect, h0, hst, h1, hh] at hd
    rw [← hd]
    dsimp only
    cases hps : removePlayerById g.players pl.id with
    | nil => rw [hps] at hlen; simp at hlen
    | cons q qs => rfl
  · intro g pl g2 hst hd
    by_cases h0 : (removePlayerById g.players pl.id).length = 0
    · simp [handleDisconnect, h0] at hd
    · simp [handleDisconnect, h0, hst] at hd
      rw [← hd]

/-- Witness for the amended C6 at concrete rooms: a join into `gameC6`, a
join into the empty room, the host leaving the waiting room `gameC6`, the
host leaving the playing room `gameP6` (promotion), and the no-promotion
shape of the waiting-room departure. -/
theorem host_uniqueness_amended_witness :
    hostCount (joinGameAdd gameC6 "d" "dan").players ≤ 1 ∧
    hostCount (joinGameAdd gameE6 "d" "dan").players = 1 ∧
    hostCount gameC6after.players ≤ 1 ∧
    gameP6after.players.head?.map (·.isHost) = some true ∧
    gameC6after.players = removePlayerById gameC6.players playerA6.id :=
  ⟨host_uniqueness_amended.1 gameC6 "d" "dan" (by decide),
   host_uniqueness_amended.2.1 gameE6 "d" "dan" (by decide) (by decide),
   host_uniqueness_amended.2.2.1 gameC6 playerA6 gameC6after (by decide) (by decide)
     (by decide) (by decide),
   host_uniqueness_amended.2.2.2.1 gameP6 playerA6 gameP6after (by decide) (by decide)
     (by decide) (by decide),
   host_uniqueness_amended.2.2.2.2 gameC6 playerA6 gameC6after (by decide) (by decide)⟩

theorem isValid_y_le (b : Board) (pc : Piece) (x y : Int)
    (hf : hasFilledCell pc.shape = true) (hv : isValidPosition b pc x y = true) :
    y ≤ 19 := by
  unfold hasFilledCell at hf
  unfold isValidPosition at hv
  rw [List.any_eq_true] at hf
  obtain ⟨rp, hrp, hin⟩ := hf
  rw [List.all_eq_true] at hv
  have hvrp := hv rp hrp
  rw [List.any_eq_true] at hin
  obtain ⟨cp, hcp, hc⟩ := hin
  rw [List.all_eq_true] at hvrp
  have h := hvrp cp hcp
  simp only [hc, if_true, Bool.and_eq_true, decide_eq_true_eq] at h
  omega

theorem descend_x_shape (b : Board) : ∀ (fuel : Nat) (pc : Piece),
    (descend b pc fuel).x = pc.x ∧ (descend b pc fuel).shape = pc.shape ∧
    (descend b pc fuel).type = pc.type := by
  intro fuel
  induction fuel with
  | zero => intro pc; exact ⟨rfl, rfl, rfl⟩
  | succ f ih =>
    intro pc
    unfold descend
    split
    · exact ih _
    · exact ⟨rfl, rfl, rfl⟩

theorem descend_stops (b : Board) : ∀ (fuel : Nat) (pc : Piece),
    hasFilledCell pc.shape = true → (20 - pc.y).toNat ≤ fuel →
    isValidPosition b (descend b pc fuel) (descend b pc fuel).x
      ((descend b pc fuel).y + 1) = false := by
  intro fuel
  induction fuel with
  | zero =>
    intro pc hf hle
    unfold descend
    cases hval : isValidPosition b pc pc.x (pc.y + 1)
    · rfl
    · have := isValid_y_le b pc pc.x (pc.y + 1) hf hval
      omega
  | succ f ih =>
    intro pc hf hle
    unfold descend
    cases hval : isValidPosition b pc pc.x (pc.y + 1) with
    | false => simp only [hval, Bool.false_eq_true, if_false]
    | true =>
      simp only [hval, if_true]
      apply ih
      · exact hf
      · have := isValid_y_le b pc pc.x (pc.y + 1) hf hval
        simp only
        omega

theorem lockPlayer_fields (p : Player) :
    (lockPlayer p).isAlive = p.isAlive ∧ (lockPlayer p).nextPiece = p.nextPiece := by
  unfold lockPlayer
  cases p.currentPiece <;> exact ⟨rfl, rfl⟩

theorem clearLinesPlayer_fields (p : Player) :
    (clearLinesPlayer p).1.isAlive = p.isAlive ∧
    (clearLinesPlayer p).1.nextPiece = p.nextPiece := by
  unfold clearLinesPlayer
  dsimp only
  split <;> exact ⟨rfl, rfl⟩

theorem gameHardDrop_alive (g : Game) (p : Player) :
    (gameHardDrop g p).2.1.isAlive = p.isAlive := by
  unfold gameHardDrop
  cases p.currentPiece with
  | none => rfl
  | some pc =>
    dsimp only
    split
    · rfl
    · show (clearLinesPlayer (lockPlayer _)).1.isAlive = p.isAlive
      rw [(clearLinesPlayer_fields _).1, (lockPlayer_fields _).1]

theorem player_eta_currentPiece (p : Player) (pc : Piece)
    (h : p.currentPiece = some pc) : { p with currentPiece := some pc } = p := by
  rw [← h]

/-- C5 as amended.  `hardDrop` does increase y until `IsValid(x, y+1)` is
false and then runs the same lock / clear / spawn sequence as the tick's
landing branch — but it performs NO topout check: the player's alive flag
is never touched and no game-end check runs, even when the newly spawned
piece is invalid at (3, 0).  When the piece is already grounded, the tick's
`dropPiece` and `hardDrop` agree exactly on the non-topout case, and on the
topout case they differ precisely in the alive flag. -/
theorem hardDrop_lock_clear_spawn_no_topout (g : Game) (p : Player) (pc : Piece)
    (hpc : p.currentPiece = some pc) (halive : p.isAlive = true)
    (hfill : hasFilledCell pc.shape = true) (hy : 0 ≤ pc.y) :
    (isValidPosition p.board (descend p.board pc 40) (descend p.board pc 40).x
        ((descend p.board pc 40).y + 1) = false ∧
      (descend p.board pc 40).x = pc.x) ∧
    (gameHardDrop g p).2.1.isAlive = p.isAlive ∧
    (isValidPosition p.board pc pc.x (pc.y + 1) = false →
      (canSpawnPiece (gameHardDrop g p).2.1 = true →
        dropPieceStep g p = ((gameHardDrop g p).1, (gameHardDrop g p).2.1)) ∧
      (canSpawnPiece (gameHardDrop g p).2.1 = false →
        (dropPieceStep g p).1 = (gameHardDrop g p).1 ∧
        (dropPieceStep g p).2 = { (gameHardDrop g p).2.1 with isAlive := false })) := by
  refine ⟨⟨descend_stops p.board 40 pc hfill (by omega), (descend_x_shape p.board 40 pc).1⟩,
    gameHardDrop_alive g p, ?_⟩
  intro hinv
  have hdesc : descend p.board pc 40 = pc := by
    unfold descend
    rw [hinv]
    simp
  have heta : ({ p with currentPiece := some pc } : Player) = p :=
    player_eta_currentPiece p pc hpc
  have hhd : gameHardDrop g p =
      ((spawnNewPiece g (clearLinesPlayer (lockPlayer p)).1).1,
       (spawnNewPiece g (clearLinesPlayer (lockPlayer p)).1).2,
       (clearLinesPlayer (lockPlayer p)).2, true) := by
    unfold gameHardDrop
    rw [hpc]
    dsimp only
    rw [hdesc, if_neg (by rw [halive]; simp), heta]
  have hstep : dropPieceStep g p =
      (if canSpawnPiece (spawnNewPiece g (clearLinesPlayer (lockPlayer p)).1).2 then
        ((spawnNewPiece g (clearLinesPlayer (lockPlayer p)).1).1,
         (spawnNewPiece g (clearLinesPlayer (lockPlayer p)).1).2)
      else
        ((spawnNewPiece g (clearLinesPlayer (lockPlayer p)).1).1,
         { (spawnNewPiece g (clearLinesPlayer (lockPlayer p)).1).2 with
            isAlive := false })) := by
    unfold dropPieceStep
    rw [hpc]
    dsimp only
    rw [hinv]
    simp only [Bool.false_eq_true, if_false]
  constructor
  · intro hcs
    rw [hhd] at hcs
    dsimp only at hcs
    rw [hstep, hhd]
    rw [if_pos hcs]
  · intro hcs
    rw [hhd] at hcs
    dsimp only at hcs
    rw [hstep, hhd]
    rw [if_neg (by rw [hcs]; exact fun h => Bool.false_ne_true h)]
    exact ⟨rfl, rfl⟩

/-- Witness for the amended C5 at the concrete topping-out scenario. -/
theorem hardDrop_lock_clear_spawn_no_topout_witness :
    ((isValidPosition playerC5.board (descend playerC5.board (mkPiece (some "O")) 40)
        (descend playerC5.board (mkPiece (some "O"))  40).x
        ((descend playerC5.board (mkPiece (some "O")) 40).y + 1) = false ∧
      (descend playerC5.board (mkPiece (some "O")) 40).x = (mkPiece (some "O")).x) ∧
    (gameHardDrop gameC5 playerC5).2.1.isAlive = playerC5.isAlive ∧
    (isValidPosition playerC5.board (mkPiece (some "O")) (mkPiece (some "O")).x
        ((mkPiece (some "O")).y + 1) = false →
      (canSpawnPiece (gameHardDrop gameC5 playerC5).2.1 = true →
        dropPieceStep gameC5 playerC5 =
          ((gameHardDrop gameC5 playerC5).1, (gameHardDrop gameC5 playerC5).2.1)) ∧
      (canSpawnPiece (gameHardDrop gameC5 playerC5).2.1 = false →
        (dropPieceStep gameC5 playerC5).1 = (gameHardDrop gameC5 playerC5).1 ∧
        (dropPieceStep gameC5 playerC5).2 =
          { (gameHardDrop gameC5 playerC5).2.1 with isAlive := false }))) :=
  hardDrop_lock_clear_spawn_no_topout gameC5 playerC5 (mkPiece (some "O"))
    (by decide) (by decide) (by decide) (by decide)

/-- C5 counterexample.  In the `gameC5` scenario the hard drop locks the
piece, the spawned piece does not fit at (3, 0) — yet the player is still
alive after `hardDrop`: the claimed "player becomes dead and the game-end
check runs" does not happen (the game ends only on a later tick). -/
theorem hardDrop_no_topout_cex :
    (gameHardDrop gameC5 playerC5).2.2 = (0, true) ∧
    canSpawnPiece (gameHardDrop gameC5 playerC5).2.1 = false ∧
    (gameHardDrop gameC5 playerC5).2.1.isAlive = true ∧
    (gameHardDrop gameC5 playerC5).1.status = .playing := by
  decide

theorem checkGameEnd_players (g : Game) : (checkGameEnd g).players = g.players := by
  unfold checkGameEnd
  split <;> rfl

theorem dropPieceStep_players (g : Game) (p : Player) :
    (dropPieceStep g p).1.players = g.players := by
  unfold dropPieceStep
  cases p.currentPiece with
  | none => rfl
  | some pc =>
    dsimp only
    split
    · rfl
    · split <;> rfl

theorem gameHardDrop_players (g : Game) (p : Player) :
    (gameHardDrop g p).1.players = g.players := by
  unfold gameHardDrop
  cases p.currentPiece with
  | none => rfl
  | some pc =>
    dsimp only
    split <;> rfl

theorem gameHardDrop_id (g : Game) (p : Player) :
    (gameHardDrop g p).2.1.id = p.id := by
  unfold gameHardDrop
  cases p.currentPiece with
  | none => rfl
  | some pc =>
    dsimp only
    split
    · rfl
    · show (clearLinesPlayer (lockPlayer _)).1.id = p.id
      unfold clearLinesPlayer lockPlayer
      dsimp only
      split <;> rfl

theorem tickPlayer_other_boards (g : Game) (i j : Nat) (hij : j ≠ i) :
    ((tickPlayer g i).players[j]?).map (·.board) = (g.players[j]?).map (·.board) := by
  unfold tickPlayer
  cases g.players[i]? with
  | none => rfl
  | some p =>
    dsimp only
    split
    · split
      · dsimp only
        rw [List.getElem?_set_ne (fun h => hij h.symm), dropPieceStep_players]
      · rw [checkGameEnd_players]
        dsimp only
        rw [List.getElem?_set_ne (fun h => hij h.symm), dropPieceStep_players]
    · rfl

theorem addPenaltyLinesToOthers_players (g : Game) (cid : String) (n : Nat) :
    (addPenaltyLinesToOthers g cid n).players = g.players.map (penalizeOne cid n) := by
  unfold addPenaltyLinesToOthers
  dsimp only
  split
  · rw [checkGameEnd_players]
  · rfl

theorem penalizeOne_board (cid : String) (n : Nat) (q : Player)
    (hid : q.id ≠ cid) (halive : q.isAlive = true) :
    (penalizeOne cid n q).board = addPenaltyToBoard q.board n := by
  unfold penalizeOne
  rw [if_pos ⟨hid, halive⟩]
  dsimp only
  split <;> rfl

theorem addPenaltyToBoard_zero (b : Board) (hb : b.length ≤ 20) :
    addPenaltyToBoard b 0 = b := by
  unfold addPenaltyToBoard
  dsimp only
  rw [List.replicate, List.append_nil]
  have h0 : b.length - 20 = 0 := by omega
  rw [h0, List.drop_zero]

/-- C4 counterexample.  On the tick's gravity step the lock of `pieceO818`
clears two lines for player "a" (k = 2 ≥ 2), yet the alive opponent "b"
keeps an untouched empty board: `dropPiece` discards the `clearLines`
count and never calls `addPenaltyLinesToOthers`. -/
theorem tick_lock_no_penalty_injection_cex :
    ((tickPlayer gameC4 0).players[0]?).map (·.linesCleared) = some 2 ∧
    ((tickPlayer gameC4 0).players[1]?).map (·.board) = some createEmptyBoard ∧
    (gameC4.players[1]?).map (·.board) = some createEmptyBoard ∧
    (gameC4.players[1]?).map (·.isAlive) = some true := by
  decide

/-- C4 as amended.  Penalty injection happens only on the hard-drop path:
the tick's gravity step never changes any other player's board, whatever
the cleared count; when a hard drop routed through the manager clears
k ≥ 1 lines, every other alive opponent's board becomes its old board with
k−1 penalty rows appended (and the top trimmed) — so k ≥ 2 injects k−1
rows and k = 1 injects zero rows, leaving a 20-row board unchanged; and
when the hard drop clears nothing, the other players' entries are
untouched. -/
theorem penalty_injection_only_on_hardDrop :
    (∀ (g : Game) (i j : Nat), j ≠ i →
        ((tickPlayer g i).players[j]?).map (·.board) =
          (g.players[j]?).map (·.board)) ∧
    (∀ (g : Game) (sid : String) (i j : Nat) (p q : Player),
        g.status = .playing →
        g.players.findIdx? (fun r => r.id = sid) = some i →
        g.players[i]? = some p → j ≠ i → g.players[j]? = some q →
        q.isAlive = true → q.id ≠ p.id →
        (gameHardDrop g p).2.2.2 = true → 1 ≤ (gameHardDrop g p).2.2.1 →
        ((managerHardDrop g sid).players[j]?).map (·.board) =
          some (addPenaltyToBoard q.board ((gameHardDrop g p).2.2.1 - 1))) ∧
    (∀ (g : Game) (sid : String) (i j : Nat) (p : Player),
        g.status = .playing →
        g.players.findIdx? (fun r => r.id = sid) = some i →
        g.players[i]? = some p → j ≠ i →
        (gameHardDrop g p).2.2.1 = 0 →
        (managerHardDrop g sid).players[j]? = g.players[j]?) ∧
    (∀ b : Board, b.length ≤ 20 → addPenaltyToBoard b 0 = b) := by
  refine ⟨tickPlayer_other_boards, ?_, ?_, addPenaltyToBoard_zero⟩
  · intro g sid i j p q hst hfind hpi hij hpj halive hid hsucc hk
    unfold managerHardDrop
    rw [if_neg (by rw [hst]; exact fun h => h rfl), hfind]
    dsimp only
    rw [hpi]
    dsimp only
    rw [if_pos (by rw [hsucc]; simp; omega)]
    rw [addPenaltyLinesToOthers_players]
    rw [List.getElem?_map, List.getElem?_set_ne (fun h => hij h.symm),
      gameHardDrop_players, hpj]
    dsimp only [Option.map]
    rw [penalizeOne_board _ _ q (by rw [gameHardDrop_id]; exact hid) halive]
  · intro g sid i j p hst hfind hpi hij hk0
    unfold managerHardDrop
    rw [if_neg (by rw [hst]; exact fun h => h rfl), hfind]
    dsimp only
    rw [hpi]
    dsimp only
    rw [if_neg (by rw [hk0]; simp)]
    dsimp only
    rw [List.getElem?_set_ne (fun h => hij h.symm), gameHardDrop_players]

/-- Witness for the amended C4 at the concrete rooms: the tick double
clear of `gameC4`, the hard-drop double clear of `gameH4` (k = 2, one
penalty row lands on "b"), the zero-clear hard drop of `gameK4`, and the
empty injection. -/
theorem penalty_injection_only_on_hardDrop_witness :
    ((tickPlayer gameC4 0).players[1]?).map (·.board) =
      (gameC4.players[1]?).map (·.board) ∧
    ((managerHardDrop gameH4 "a").players[1]?).map (·.board) =
      some (addPenaltyToBoard playerB4.board
        ((gameHardDrop gameH4 playerA4h).2.2.1 - 1)) ∧
    (managerHardDrop gameK4 "a").players[1]? = gameK4.players[1]? ∧
    addPenaltyToBoard createEmptyBoard 0 = createEmptyBoard :=
  ⟨penalty_injection_only_on_hardDrop.1 gameC4 0 1 (by decide),
   penalty_injection_only_on_hardDrop.2.1 gameH4 "a" 0 1 playerA4h playerB4 (by decide)
     (by decide) (by decide) (by decide) (by decide) (by decide) (by decide)
     (by decide) (by decide),
   penalty_injection_only_on_hardDrop.2.2.1 gameK4 "a" 0 1 playerK4 (by decide)
     (by decide) (by decide) (by decide) (by decide),
   penalty_injection_only_on_hardDrop.2.2.2 createEmptyBoard (by decide)⟩

end Tetris
